import Mathlib

/-!
# kyubey: noise synthesis, triangular kernel and pipeline orchestration

A shallow embedding of `src/main.cpp`.

* `cv::Mat` (single channel, continuous) is a row-major buffer with its two dimensions.
* `float` / `double` values are read over the rationals `ℚ`.
* `int` values are `Int` (no operation of the embedded code leaves the 32-bit range for the
  sizes a matrix can have), loop counters are `Nat` and are cast where the code mixes them
  with `center`.
* The OpenCV / cxxopts / filesystem calls are collaborators, passed as a record `Env`;
  their observable effects are recorded as a list of `Event`s.
* The random source of `addSaltPepperNoise` is the sequence of values `dis(gen)` returns.
-/

namespace Kyubey

/-! ## Matrices -/

/-- Single-channel continuous `cv::Mat`: `rows * cols` elements stored row-major. -/
structure Mat (α : Type) where
  rows : Nat
  cols : Nat
  data : List α
  size_eq : data.length = rows * cols

namespace Mat

variable {α : Type}

/-- Read access `m.at<T>(i, j)`: element `i * cols + j` of the buffer. -/
def cell [Inhabited α] (m : Mat α) (i j : Nat) : α :=
  m.data.getD (i * m.cols + j) default

/-- Write access `m.at<T>(i, j) = v`. -/
def set (m : Mat α) (i j : Nat) (v : α) : Mat α :=
  ⟨m.rows, m.cols, m.data.set (i * m.cols + j) v, by simp [m.size_eq]⟩

/-- The matrix `cv::Mat::zeros(rows, cols, CV_32F)`. -/
def zeros (rows cols : Nat) : Mat ℚ :=
  ⟨rows, cols, List.replicate (rows * cols) 0, by simp⟩

/-- In-place scalar division `m /= s`. -/
def divScalar (m : Mat ℚ) (s : ℚ) : Mat ℚ :=
  ⟨m.rows, m.cols, m.data.map (fun v => v / s), by simp [m.size_eq]⟩

/-- The test `m.empty()`: the matrix has no element. -/
def empty (m : Mat α) : Bool :=
  m.rows * m.cols == 0

/-- Sum of all the elements of the buffer. -/
def total (m : Mat ℚ) : ℚ :=
  m.data.sum

end Mat

/-! ## Loops -/

/-- The loop `for (int i = 0; i < n; ++i) body(i)` acting on a state. -/
def forLoop {σ : Type} (n : Nat) (body : Nat → σ → σ) (s : σ) : σ :=
  (List.range n).foldl (fun acc i => body i acc) s

/-! ## `createTriangularKernel` -/

/-- The value `static_cast<float>((center + 1) - std::max(std::abs(i - center),
std::abs(j - center)))` of line 39. -/
def triangularVal (center : Int) (i j : Nat) : ℚ :=
  (((center + 1) - max |(i : Int) - center| |(j : Int) - center| : Int) : ℚ)

/-- Lines 33-43 of `createTriangularKernel`: the zero matrix, `center`, and the two nested
loops that store `val` at `(i, j)` and add it to `sum`. Returns `(kernel, sum)` as they are
just before the normalisation test. `size / 2` on `int` truncates, hence `Int.tdiv`; a
negative `size`, which `cv::Mat::zeros` rejects, gives the 0 x 0 matrix here. -/
def fillTriangularKernel (size : Int) : Mat ℚ × ℚ :=
  let kernel := Mat.zeros size.toNat size.toNat
  let center := Int.tdiv size 2
  forLoop size.toNat (fun i st =>
    forLoop size.toNat (fun j st =>
      let val := triangularVal center i j
      (st.1.set i j val, st.2 + val)) st) (kernel, 0)

/-- The function `createTriangularKernel(size)`: fill, then `if (sum > 0) kernel /= sum`. -/
def createTriangularKernel (size : Int) : Mat ℚ :=
  let st := fillTriangularKernel size
  if st.2 > 0 then st.1.divScalar st.2 else st.1

/-! ## `addSaltPepperNoise` -/

/-- The function `addSaltPepperNoise(img, density)`. `draws k` is the value returned by the
`k`-th evaluation of `dis(gen)` (counting from 0). The result is the mutated raster together
with the number of draws taken from the generator. -/
def addSaltPepperNoise (draws : Nat → ℚ) (img : Mat Nat) (density : ℚ) : Mat Nat × Nat :=
  let saltProb := density / 2
  forLoop img.rows (fun row st =>
    forLoop img.cols (fun col st =>
      let r := draws st.2
      if r < saltProb then (st.1.set row col 0, st.2 + 1)
      else if r < density then (st.1.set row col 255, st.2 + 1)
      else (st.1, st.2 + 1)) st) (img, 0)

/-! ## Collaborators and observable effects -/

/-- Effects of the program that are visible from outside, in the order they happen.
`D` is the type of the `double` values that the metrics return. -/
inductive Event (D : Type) where
  /-- The call `cv::imwrite(path, img)`. -/
  | imwrite (path : String) (img : Mat Nat)
  /-- A line `std::cout << text << std::endl`. -/
  | cout (text : String)
  /-- A line `std::cout << text << value << std::endl` whose last item is a `double`. -/
  | coutValue (text : String) (value : D)
  /-- A line `std::cerr << text << std::endl`. -/
  | cerr (text : String)
  /-- The call `std::filesystem::create_directories(path)`. -/
  | createDirectories (path : String)

/-- The library functions that `main.cpp` calls, as parameters of the embedding. -/
structure Env (D : Type) where
  /-- The call `cv::imread(path, cv::IMREAD_GRAYSCALE)`; an empty matrix on failure. -/
  imread : String → Mat Nat
  /-- The call `cv::PSNR(img1, img2)`. -/
  PSNR : Mat Nat → Mat Nat → D
  /-- The value `cv::quality::QualitySSIM::create(ref)->compute(cmp)[0]`. -/
  qualitySSIM : Mat Nat → Mat Nat → D
  /-- The call `cv::blur(src, dst, cv::Size(size, size))`. -/
  blur : Mat Nat → Int → Mat Nat
  /-- The call `cv::medianBlur(src, dst, size)`. -/
  medianBlur : Mat Nat → Int → Mat Nat
  /-- The call `cv::filter2D(src, dst, -1, kernel)`. -/
  filter2D : Mat Nat → Mat ℚ → Mat Nat
  /-- The call `cv::Sobel(src, dst, CV_16S, dx, dy)`. -/
  Sobel : Mat Nat → Int → Int → Mat Int
  /-- The call `cv::convertScaleAbs(src, dst)` on a 16-bit signed matrix. -/
  convertScaleAbs : Mat Int → Mat Nat
  /-- The call `src.convertTo(dst, CV_32F)`. -/
  convertToFloat : Mat Int → Mat D
  /-- The call `cv::magnitude(x, y, dst)`. -/
  magnitude : Mat D → Mat D → Mat D
  /-- The call `cv::convertScaleAbs(src, dst)` on a floating-point matrix. -/
  convertScaleAbsFloat : Mat D → Mat Nat
  /-- The value `cv::mean(src)[0]`. -/
  mean : Mat Nat → D
  /-- The text `options.help()` of the command-line parser. -/
  helpText : String

/-- What `options.parse(argc, argv)` yields, as far as `main` looks at it. -/
structure ParseResult where
  /-- Whether `result.count("help")` is non-zero. -/
  help : Bool
  /-- The value of `--image1` when `result.count("image1")` is non-zero. -/
  image1 : Option String
  /-- The value of `--image2` when `result.count("image2")` is non-zero. -/
  image2 : Option String
  /-- The value `result["density"].as<double>()`. -/
  density : ℚ
  /-- The value `result["output-dir"].as<std::string>()`. -/
  outputDir : String

/-! ## Metrics, edge extraction and the orchestrator -/

/-- The function `computePSNR(img1, img2)`. -/
def computePSNR {D : Type} (env : Env D) (img1 img2 : Mat Nat) : D :=
  env.PSNR img1 img2

/-- The function `computeSSIM(img1, img2)`: the scorer is created on `img2` and applied
to `img1`. -/
def computeSSIM {D : Type} (env : Env D) (img1 img2 : Mat Nat) : D :=
  env.qualitySSIM img2 img1

/-- The function `applySobelAndSave(img, basePath, label)`. -/
def applySobelAndSave {D : Type} (env : Env D) (img : Mat Nat) (basePath label : String) :
    List (Event D) :=
  let sobelH := env.Sobel img 1 0
  let sobelHAbs := env.convertScaleAbs sobelH
  let sobelV := env.Sobel img 0 1
  let sobelVAbs := env.convertScaleAbs sobelV
  let sobelH_f := env.convertToFloat sobelH
  let sobelV_f := env.convertToFloat sobelV
  let magnitude := env.convertScaleAbsFloat (env.magnitude sobelH_f sobelV_f)
  let meanVal := env.mean magnitude
  [Event.imwrite (basePath ++ "_horizontal.png") sobelHAbs,
   Event.imwrite (basePath ++ "_vertical.png") sobelVAbs,
   Event.imwrite (basePath ++ "_magnitude.png") magnitude,
   Event.coutValue ("Sobel magnitude mean for " ++ label ++ ": ") meanVal]

/-- One iteration of the loop `for (int size : sizes)` of `processImage` (lines 108-133),
acting on the events so far and on the vector `filteredImages`. -/
def filterStep {D : Type} (env : Env D) (original noisy : Mat Nat)
    (outputPath : String → String)
    (st : List (Event D) × List (String × Int × Mat Nat)) (size : Int) :
    List (Event D) × List (String × Int × Mat Nat) :=
  let sz := toString size
  let meanFiltered := env.blur noisy size
  let medianFiltered := env.medianBlur noisy size
  let kernel := createTriangularKernel size
  let triangularFiltered := env.filter2D noisy kernel
  (st.1 ++
    [Event.imwrite (outputPath ("mean_" ++ sz) ++ ".png") meanFiltered,
     Event.coutValue ("Mean " ++ sz ++ "x" ++ sz ++ " PSNR: ")
       (computePSNR env original meanFiltered),
     Event.coutValue ("Mean " ++ sz ++ "x" ++ sz ++ " SSIM: ")
       (computeSSIM env original meanFiltered),
     Event.imwrite (outputPath ("median_" ++ sz) ++ ".png") medianFiltered,
     Event.coutValue ("Median " ++ sz ++ "x" ++ sz ++ " PSNR: ")
       (computePSNR env original medianFiltered),
     Event.coutValue ("Median " ++ sz ++ "x" ++ sz ++ " SSIM: ")
       (computeSSIM env original medianFiltered),
     Event.imwrite (outputPath ("triangular_" ++ sz) ++ ".png") triangularFiltered,
     Event.coutValue ("Triangular " ++ sz ++ "x" ++ sz ++ " PSNR: ")
       (computePSNR env original triangularFiltered),
     Event.coutValue ("Triangular " ++ sz ++ "x" ++ sz ++ " SSIM: ")
       (computeSSIM env original triangularFiltered)],
   st.2 ++ [("mean", size, meanFiltered), ("median", size, medianFiltered),
     ("triangular", size, triangularFiltered)])

/-- The function `processImage(path, imgName, noiseDensity, outputDir)`; `draws` is the
sequence of values of the random source that `addSaltPepperNoise` creates in this call. -/
def processImage {D : Type} (env : Env D) (draws : Nat → ℚ) (path imgName : String)
    (noiseDensity : ℚ) (outputDir : String) : List (Event D) :=
  let original := env.imread path
  if original.empty then
    [Event.cerr ("Failed to load image: " ++ path)]
  else
    let outputPath := fun (suffix : String) => outputDir ++ "/" ++ imgName ++ "_" ++ suffix
    let noisy := (addSaltPepperNoise draws original noiseDensity).1
    let start : List (Event D) :=
      [Event.imwrite (outputPath "original" ++ ".png") original,
       Event.imwrite (outputPath "noisy" ++ ".png") noisy,
       Event.cout ("\nMetrics for " ++ imgName ++ ":"),
       Event.coutValue "Noisy PSNR: " (computePSNR env original noisy),
       Event.coutValue "Noisy SSIM: " (computeSSIM env original noisy)]
    let sizes : List Int := [3, 5, 7]
    let st := sizes.foldl (filterStep env original noisy outputPath) (start, [])
    let edges := st.1 ++
      applySobelAndSave env original (outputPath "sobel_original") "original" ++
      applySobelAndSave env noisy (outputPath "sobel_noisy") "noisy"
    st.2.foldl (fun evs item =>
      let filterType := item.1
      let size := item.2.1
      let filtered := item.2.2
      let pre := "sobel_" ++ filterType ++ "_" ++ toString size
      let label := filterType ++ " " ++ toString size ++ "x" ++ toString size
      evs ++ applySobelAndSave env filtered (outputPath pre) label) edges

/-- The function `main`, from the parsed command line on: the events and the exit code.
`draws1` and `draws2` are the random sequences of the two calls of `processImage`. -/
def main {D : Type} (env : Env D) (draws1 draws2 : Nat → ℚ) (result : ParseResult) :
    List (Event D) × Int :=
  if result.help then
    ([Event.cout env.helpText], 0)
  else
    match result.image1, result.image2 with
    | some image1, some image2 =>
      let noiseDensity := result.density
      let outputDir := result.outputDir
      ([Event.createDirectories outputDir] ++
        processImage env draws1 image1 "image1" noiseDensity outputDir ++
        processImage env draws2 image2 "image2" noiseDensity outputDir, 0)
    | _, _ =>
      ([Event.cerr "Error: Both --image1 and --image2 are required.",
        Event.cout env.helpText], 1)

/-- The paths given to `cv::imwrite`, in the order of the calls. -/
def writtenPaths {D : Type} (evs : List (Event D)) : List String :=
  evs.filterMap (fun e => match e with
    | Event.imwrite path _ => some path
    | _ => none)

/-- The number of metric lines (`PSNR`, `SSIM` or Sobel mean) among the events. -/
def metricCount {D : Type} (evs : List (Event D)) : Nat :=
  (evs.filter (fun e => match e with
    | Event.coutValue _ _ => true
    | _ => false)).length

/-! ## The artifact names of the specification -/

/-- The three filter types of the specification. -/
def specFilterTypes : List String := ["mean", "median", "triangular"]

/-- The three window sizes of the specification. -/
def specWindowSizes : List Nat := [3, 5, 7]

/-- The three maps that one edge extraction persists. -/
def specSobelMaps : List String := ["horizontal", "vertical", "magnitude"]

/-- The nine names `<type>_<size>`. -/
def specFilterNames : List String :=
  specFilterTypes.flatMap (fun t => specWindowSizes.map (fun s => t ++ "_" ++ toString s))

/-- The 44 suffixes of the specification: `original`, `noisy`, the nine `<type>_<size>`, and
`sobel_<src>_<map>` for the eleven sources and three maps. -/
def specArtifactSuffixes : List String :=
  ["original", "noisy"] ++ specFilterNames ++
    (["original", "noisy"] ++ specFilterNames).flatMap
      (fun src => specSobelMaps.map (fun m => "sobel_" ++ src ++ "_" ++ m))

/-- The path `outDir/label_<suffix>.png`. -/
def specArtifactPath (outDir label suffix : String) : String :=
  outDir ++ "/" ++ label ++ "_" ++ suffix ++ ".png"

/-! ## Correlation and convolution with a kernel -/

/-- The sum that a correlation with `kernel`, anchored at the kernel centre, forms at row `y`
and column `x` of a border-extended source `src` (the operation `cv::filter2D` documents). -/
def correlateAt (kernel : Mat ℚ) (src : Int → Int → ℚ) (y x : Int) : ℚ :=
  ∑ i in Finset.range kernel.rows, ∑ j in Finset.range kernel.cols,
    kernel.cell i j *
      src (y + ((i : Int) - (kernel.rows / 2 : Nat))) (x + ((j : Int) - (kernel.cols / 2 : Nat)))

/-- The sum that a 2-D convolution with `kernel`, anchored at the kernel centre, forms at
row `y` and column `x` of a border-extended source `src`. -/
def convolveAt (kernel : Mat ℚ) (src : Int → Int → ℚ) (y x : Int) : ℚ :=
  ∑ i in Finset.range kernel.rows, ∑ j in Finset.range kernel.cols,
    kernel.cell i j *
      src (y - ((i : Int) - (kernel.rows / 2 : Nat))) (x - ((j : Int) - (kernel.cols / 2 : Nat)))

/-! ## Sample inputs -/

/-- A 2 x 3 raster of distinct grey levels. -/
def sampleRaster : Mat Nat :=
  ⟨2, 3, [10, 20, 30, 40, 50, 60], rfl⟩

/-- A sequence of draws in `[0, 1)` that hits the pepper, salt and untouched ranges. -/
def sampleDraws (k : Nat) : ℚ :=
  [1 / 10, 3 / 10, 3 / 5, 9 / 10, 1 / 5, 9 / 20].getD k 0

/-- A set of collaborators in which `missing.png` fails to load and every other path loads
as `sampleRaster`; the filters return their input and the metrics return 0. -/
def sampleEnv : Env ℚ where
  imread := fun path => if path = "missing.png" then ⟨0, 0, [], rfl⟩ else sampleRaster
  PSNR := fun _ _ => 0
  qualitySSIM := fun _ _ => 0
  blur := fun m _ => m
  medianBlur := fun m _ => m
  filter2D := fun m _ => m
  Sobel := fun m _ _ => ⟨m.rows, m.cols, m.data.map Int.ofNat, by simp [m.size_eq]⟩
  convertScaleAbs := fun m => ⟨m.rows, m.cols, m.data.map Int.natAbs, by simp [m.size_eq]⟩
  convertToFloat := fun m =>
    ⟨m.rows, m.cols, m.data.map (Int.cast : Int → ℚ), by simp [m.size_eq]⟩
  magnitude := fun m _ => m
  convertScaleAbsFloat := fun m =>
    ⟨m.rows, m.cols, m.data.map (fun v => (Rat.floor v).natAbs), by simp [m.size_eq]⟩
  mean := fun _ => 0
  helpText := "usage"

/-- A parsed command line naming `missing.png` and `present.png`. -/
def sampleArgs : ParseResult :=
  ⟨false, some "missing.png", some "present.png", 1 / 10, "output"⟩

/-! ## Basic facts about matrices and loops -/

theorem forLoop_zero {σ : Type} (body : Nat → σ → σ) (s : σ) : forLoop 0 body s = s := rfl

theorem forLoop_succ {σ : Type} (n : Nat) (body : Nat → σ → σ) (s : σ) :
    forLoop (n + 1) body s = body n (forLoop n body s) := by
  simp [forLoop, List.range_succ, List.foldl_append]

/-- An invariant that holds initially and is preserved by every iteration holds at the end. -/
theorem forLoop_inv {σ : Type} (P : Nat → σ → Prop) (n : Nat) (body : Nat → σ → σ) (s : σ)
    (h0 : P 0 s) (hstep : ∀ k t, k < n → P k t → P (k + 1) (body k t)) :
    P n (forLoop n body s) := by
  induction n with
  | zero => exact h0
  | succ m ih =>
    rw [forLoop_succ]
    exact hstep m _ (Nat.lt_succ_self m)
      (ih (fun k t hk hp => hstep k t (Nat.lt_succ_of_lt hk) hp))

namespace Mat

variable {α : Type}

@[simp] theorem set_rows (m : Mat α) (i j : Nat) (v : α) : (m.set i j v).rows = m.rows := rfl

@[simp] theorem set_cols (m : Mat α) (i j : Nat) (v : α) : (m.set i j v).cols = m.cols := rfl

theorem index_lt (m : Mat α) {i j : Nat} (hi : i < m.rows) (hj : j < m.cols) :
    i * m.cols + j < m.data.length := by
  rw [m.size_eq]
  calc i * m.cols + j < i * m.cols + m.cols := by omega
    _ = (i + 1) * m.cols := by ring
    _ ≤ m.rows * m.cols := Nat.mul_le_mul_right _ hi

theorem index_inj {c i j a b : Nat} (hj : j < c) (hb : b < c) (h : i * c + j = a * c + b) :
    i = a ∧ j = b := by
  have h1 : (i * c + j) / c = (a * c + b) / c := by rw [h]
  have h2 : (i * c + j) % c = (a * c + b) % c := by rw [h]
  have hc : 0 < c := by omega
  rw [Nat.mul_comm i c, Nat.mul_comm a c, Nat.mul_add_div hc, Nat.mul_add_div hc,
    Nat.div_eq_of_lt hj, Nat.div_eq_of_lt hb] at h1
  rw [Nat.mul_comm i c, Nat.mul_comm a c, Nat.mul_add_mod, Nat.mul_add_mod,
    Nat.mod_eq_of_lt hj, Nat.mod_eq_of_lt hb] at h2
  omega

theorem cell_set_same [Inhabited α] (m : Mat α) {i j : Nat} (hi : i < m.rows)
    (hj : j < m.cols) (v : α) : (m.set i j v).cell i j = v := by
  have h := m.index_lt hi hj
  simp [cell, set, List.getD_eq_getElem, h]

theorem cell_set_other [Inhabited α] (m : Mat α) {i j a b : Nat} (hj : j < m.cols)
    (hb : b < m.cols) (hne : ¬ (i = a ∧ j = b)) (v : α) :
    (m.set i j v).cell a b = m.cell a b := by
  have hidx : i * m.cols + j ≠ a * m.cols + b := fun h => hne (index_inj hj hb h)
  simp only [cell, set, List.getD_eq_getElem?_getD]
  rw [List.getElem?_set_ne hidx]

end Mat

/-! ## The state after the two loops of `createTriangularKernel` -/

theorem fillTriangularKernel_spec (size : Int) :
    (fillTriangularKernel size).1.rows = size.toNat ∧
    (fillTriangularKernel size).1.cols = size.toNat ∧
    (∀ a b, a < size.toNat → b < size.toNat →
      (fillTriangularKernel size).1.cell a b = triangularVal (Int.tdiv size 2) a b) ∧
    (fillTriangularKernel size).2 =
      ∑ a in Finset.range size.toNat, ∑ b in Finset.range size.toNat,
        triangularVal (Int.tdiv size 2) a b := by
  have key := forLoop_inv
    (fun i (st : Mat ℚ × ℚ) =>
      st.1.rows = size.toNat ∧ st.1.cols = size.toNat ∧
      (∀ a b, a < size.toNat → b < size.toNat →
        st.1.cell a b = if a < i then triangularVal (Int.tdiv size 2) a b else 0) ∧
      st.2 = ∑ a in Finset.range i, ∑ b in Finset.range size.toNat,
        triangularVal (Int.tdiv size 2) a b)
    size.toNat
    (fun i st => forLoop size.toNat (fun j st =>
      let val := triangularVal (Int.tdiv size 2) i j
      (st.1.set i j val, st.2 + val)) st)
    (Mat.zeros size.toNat size.toNat, 0)
    (by
      refine ⟨rfl, rfl, ?_, by simp⟩
      intro a b _ _
      simp only [Nat.not_lt_zero, if_false]
      simp only [Mat.cell, Mat.zeros, List.getD_eq_getElem?_getD]
      rcases h : (List.replicate (size.toNat * size.toNat) (0 : ℚ))[a * size.toNat + b]? with _ | v
      · rfl
      · have := List.getElem?_eq_some_iff.mp h
        obtain ⟨_, hv⟩ := this
        simp at hv
        simp [hv])
    (by
      intro i t hi ⟨hr, hc, hcell, hsum⟩
      have inner := forLoop_inv
        (fun j (st : Mat ℚ × ℚ) =>
          st.1.rows = size.toNat ∧ st.1.cols = size.toNat ∧
          (∀ a b, a < size.toNat → b < size.toNat →
            st.1.cell a b = if a < i ∨ (a = i ∧ b < j)
              then triangularVal (Int.tdiv size 2) a b else 0) ∧
          st.2 = (∑ a in Finset.range i, ∑ b in Finset.range size.toNat,
            triangularVal (Int.tdiv size 2) a b) +
            ∑ b in Finset.range j, triangularVal (Int.tdiv size 2) i b)
        size.toNat
        (fun j st =>
          let val := triangularVal (Int.tdiv size 2) i j
          (st.1.set i j val, st.2 + val))
        t
        (by
          refine ⟨hr, hc, ?_, by simpa using hsum⟩
          intro a b ha hb
          rw [hcell a b ha hb]
          simp)
        (by
          intro j u hj ⟨ur, uc, ucell, usum⟩
          refine ⟨ur, uc, ?_, ?_⟩
          · intro a b ha hb
            by_cases hab : i = a ∧ j = b
            · obtain ⟨rfl, rfl⟩ := hab
              have := Mat.cell_set_same u.1 (i := i) (j := j) (by omega) (by omega)
                (triangularVal (Int.tdiv size 2) i j)
              simp [this]
            · have := Mat.cell_set_other u.1 (i := i) (j := j) (a := a) (b := b)
                (by omega) (by omega) hab (triangularVal (Int.tdiv size 2) i j)
              simp only [this, ucell a b ha hb]
              have hiff : (a < i ∨ a = i ∧ b < j) ↔ (a < i ∨ a = i ∧ b < j + 1) := by
                constructor
                · rintro (h | ⟨h1, h2⟩)
                  · exact Or.inl h
                  · exact Or.inr ⟨h1, by omega⟩
                · rintro (h | ⟨h1, h2⟩)
                  · exact Or.inl h
                  · refine Or.inr ⟨h1, ?_⟩
                    rcases Nat.lt_succ_iff_lt_or_eq.mp h2 with h3 | h3
                    · exact h3
                    · exact absurd ⟨h1.symm, h3.symm⟩ hab
              simp only [hiff]
          · simp only [usum, Finset.sum_range_succ]
            ring)
      obtain ⟨r1, r2, r3, r4⟩ := inner
      refine ⟨r1, r2, ?_, ?_⟩
      · intro a b ha hb
        rw [r3 a b ha hb]
        have hiff : (a < i ∨ a = i ∧ b < size.toNat) ↔ a < i + 1 := by
          constructor
          · rintro (h | ⟨h1, _⟩) <;> omega
          · intro h
            rcases Nat.lt_succ_iff_lt_or_eq.mp h with h3 | h3
            · exact Or.inl h3
            · exact Or.inr ⟨h3, hb⟩
        simp only [hiff]
      · rw [r4, Finset.sum_range_succ])
  obtain ⟨k1, k2, k3, k4⟩ := key
  refine ⟨k1, k2, ?_, k4⟩
  intro a b ha hb
  have := k3 a b ha hb
  simpa [ha] using this

/-! ## Sums over the buffer -/

theorem list_sum_eq_sum_range (l : List ℚ) :
    l.sum = ∑ k in Finset.range l.length, l.getD k 0 := by
  induction l with
  | nil => simp
  | cons x xs ih =>
    rw [List.sum_cons, List.length_cons, Finset.sum_range_succ', ih]
    simp [add_comm]

theorem sum_range_mul (f : Nat → ℚ) (r c : Nat) :
    ∑ k in Finset.range (r * c), f k =
      ∑ i in Finset.range r, ∑ j in Finset.range c, f (i * c + j) := by
  induction r with
  | zero => simp
  | succ n ih =>
    rw [Finset.sum_range_succ, ← ih, Nat.succ_mul, Finset.sum_range_add]

theorem Mat.total_eq_sum_cells (m : Mat ℚ) :
    m.total = ∑ i in Finset.range m.rows, ∑ j in Finset.range m.cols, m.cell i j := by
  unfold Mat.total Mat.cell
  rw [list_sum_eq_sum_range, m.size_eq, sum_range_mul]
  rfl

theorem Mat.divScalar_cell (m : Mat ℚ) (s : ℚ) (i j : Nat) :
    (m.divScalar s).cell i j = m.cell i j / s := by
  have h := List.getD_map m.data (0 : ℚ) (n := i * m.cols + j) (fun v => v / s)
  simp only [zero_div] at h
  exact h

theorem Mat.divScalar_total (m : Mat ℚ) (s : ℚ) : (m.divScalar s).total = m.total / s := by
  unfold Mat.total Mat.divScalar
  simp only
  induction m.data with
  | nil => simp
  | cons x xs ih => simp [ih, add_div]

/-! ## Arithmetic of the pyramid -/

theorem tdiv_two_eq {size : Int} (hpos : 1 ≤ size) : Int.tdiv size 2 = size / 2 :=
  Int.tdiv_eq_ediv (by omega) (by decide)

theorem triangularVal_ge_one {size : Int} {a b : Nat}
    (ha : (a : Int) < size) (hb : (b : Int) < size) :
    (1 : ℚ) ≤ triangularVal (size / 2) a b := by
  unfold triangularVal
  have : (1 : Int) ≤ (size / 2 + 1) - max |(a : Int) - size / 2| |(b : Int) - size / 2| := by
    rcases abs_cases ((a : Int) - size / 2) with ⟨h1, _⟩ | ⟨h1, _⟩ <;>
    rcases abs_cases ((b : Int) - size / 2) with ⟨h2, _⟩ | ⟨h2, _⟩ <;>
    rw [h1, h2] <;> omega
  exact_mod_cast this

theorem triangularVal_center {size : Int} (hpos : 1 ≤ size) :
    triangularVal (size / 2) (size / 2).toNat (size / 2).toNat = ((size / 2 + 1 : Int) : ℚ) := by
  unfold triangularVal
  have h : (((size / 2).toNat : Nat) : Int) = size / 2 := Int.toNat_of_nonneg (by omega)
  rw [h]
  simp

theorem triangularVal_lt_center {size : Int} {a b : Nat}
    (hne : ¬ (a = (size / 2).toNat ∧ b = (size / 2).toNat)) :
    triangularVal (size / 2) a b < ((size / 2 + 1 : Int) : ℚ) := by
  unfold triangularVal
  have : (size / 2 + 1) - max |(a : Int) - size / 2| |(b : Int) - size / 2| < size / 2 + 1 := by
    have hab : ¬ ((a : Int) = size / 2 ∧ (b : Int) = size / 2) := by
      rintro ⟨h1, h2⟩
      exact hne ⟨by omega, by omega⟩
    rcases abs_cases ((a : Int) - size / 2) with ⟨h1, _⟩ | ⟨h1, _⟩ <;>
    rcases abs_cases ((b : Int) - size / 2) with ⟨h2, _⟩ | ⟨h2, _⟩ <;>
    rw [h1, h2] <;> omega
  exact_mod_cast this

theorem triangularVal_swap (c : Int) (a b : Nat) : triangularVal c a b = triangularVal c b a := by
  unfold triangularVal
  rw [max_comm]

theorem triangularVal_flip_row {size : Int} (hodd : size % 2 = 1) {a : Nat}
    (ha : (a : Int) < size) (b : Nat) :
    triangularVal (size / 2) (size.toNat - 1 - a) b = triangularVal (size / 2) a b := by
  unfold triangularVal
  have h : (((size.toNat - 1 - a : Nat) : Int) - size / 2) = -((a : Int) - size / 2) := by
    omega
  rw [h, abs_neg]

theorem sum_triangularVal_pos {size : Int} (hpos : 1 ≤ size) :
    (0 : ℚ) < ∑ a in Finset.range size.toNat, ∑ b in Finset.range size.toNat,
      triangularVal (size / 2) a b := by
  have hne : (Finset.range size.toNat).Nonempty := by
    rw [Finset.nonempty_range_iff]
    omega
  apply Finset.sum_pos _ hne
  intro a ha
  apply Finset.sum_pos _ hne
  intro b hb
  rw [Finset.mem_range] at ha hb
  have := @triangularVal_ge_one size a b (by omega) (by omega)
  linarith

/-- The sum accumulated by the loops is positive, so the kernel is divided by it. -/
theorem createTriangularKernel_eq {size : Int} (hpos : 1 ≤ size) :
    0 < (fillTriangularKernel size).2 ∧
    createTriangularKernel size =
      (fillTriangularKernel size).1.divScalar (fillTriangularKernel size).2 := by
  obtain ⟨_, _, _, hsum⟩ := fillTriangularKernel_spec size
  have hp : 0 < (fillTriangularKernel size).2 := by
    rw [hsum, tdiv_two_eq hpos]
    exact sum_triangularVal_pos hpos
  refine ⟨hp, ?_⟩
  unfold createTriangularKernel
  simp only [gt_iff_lt, hp, if_true]

theorem createTriangularKernel_cell {size : Int} (hpos : 1 ≤ size) {a b : Nat}
    (ha : (a : Int) < size) (hb : (b : Int) < size) :
    (createTriangularKernel size).cell a b =
      triangularVal (size / 2) a b /
        ∑ x in Finset.range size.toNat, ∑ y in Finset.range size.toNat,
          triangularVal (size / 2) x y := by
  obtain ⟨_, _, hcell, hsum⟩ := fillTriangularKernel_spec size
  rw [(createTriangularKernel_eq hpos).2, Mat.divScalar_cell, hcell a b (by omega) (by omega),
    hsum, tdiv_two_eq hpos]

theorem createTriangularKernel_dims {size : Int} (hpos : 1 ≤ size) :
    (createTriangularKernel size).rows = size.toNat ∧
    (createTriangularKernel size).cols = size.toNat := by
  obtain ⟨hr, hc, _, _⟩ := fillTriangularKernel_spec size
  rw [(createTriangularKernel_eq hpos).2]
  exact ⟨hr, hc⟩

/-! ## Claims about `createTriangularKernel` -/

/-- C1: for every odd `size ≥ 1` the sum accumulated by the loops is positive, the division
branch is taken (the returned kernel is the filled matrix divided by that sum), and the
weights of the returned kernel sum to exactly 1 over the rationals. -/
theorem C1_kernel_weights_sum_to_one (size : Int) (hodd : size % 2 = 1) (hpos : 1 ≤ size) :
    0 < (fillTriangularKernel size).2 ∧
    createTriangularKernel size =
      (fillTriangularKernel size).1.divScalar (fillTriangularKernel size).2 ∧
    (createTriangularKernel size).total = 1 := by
  have _ := hodd
  obtain ⟨hp, heq⟩ := createTriangularKernel_eq hpos
  refine ⟨hp, heq, ?_⟩
  obtain ⟨hr, hc, hcell, hsum⟩ := fillTriangularKernel_spec size
  rw [heq, Mat.divScalar_total, Mat.total_eq_sum_cells, hr, hc]
  have hcells : ∑ i in Finset.range size.toNat, ∑ j in Finset.range size.toNat,
      (fillTriangularKernel size).1.cell i j = (fillTriangularKernel size).2 := by
    rw [hsum]
    apply Finset.sum_congr rfl
    intro a ha
    apply Finset.sum_congr rfl
    intro b hb
    rw [Finset.mem_range] at ha hb
    exact hcell a b ha hb
  rw [hcells]
  exact div_self (ne_of_gt hp)

theorem C1_kernel_weights_sum_to_one_witness :
    (3 : Int) % 2 = 1 ∧ (1 : Int) ≤ 3 ∧ (createTriangularKernel 3).total = 1 :=
  ⟨by decide, by decide, (C1_kernel_weights_sum_to_one 3 (by decide) (by decide)).2.2⟩

/-- C2: for every odd `size ≥ 1`, with `center = size / 2`, and every cell `(i, j)` with
`i, j < size`: before normalisation the cell holds
`(center + 1) - max(|i - center|, |j - center|)`, the centre cell holds `center + 1`, and the
returned kernel holds the first value divided by the sum of these values over all cells. -/
theorem C2_kernel_cell_formula (size : Int) (hodd : size % 2 = 1) (hpos : 1 ≤ size)
    (i j : Nat) (hi : (i : Int) < size) (hj : (j : Int) < size) :
    (fillTriangularKernel size).1.cell i j =
      (((size / 2 + 1) - max |(i : Int) - size / 2| |(j : Int) - size / 2| : Int) : ℚ) ∧
    (fillTriangularKernel size).1.cell (size / 2).toNat (size / 2).toNat =
      ((size / 2 + 1 : Int) : ℚ) ∧
    (createTriangularKernel size).cell i j =
      (((size / 2 + 1) - max |(i : Int) - size / 2| |(j : Int) - size / 2| : Int) : ℚ) /
        ∑ a in Finset.range size.toNat, ∑ b in Finset.range size.toNat,
          (((size / 2 + 1) - max |(a : Int) - size / 2| |(b : Int) - size / 2| : Int) : ℚ) := by
  have _ := hodd
  obtain ⟨_, _, hcell, _⟩ := fillTriangularKernel_spec size
  refine ⟨?_, ?_, ?_⟩
  · rw [hcell i j (by omega) (by omega), tdiv_two_eq hpos]
    rfl
  · rw [hcell _ _ (by omega) (by omega), tdiv_two_eq hpos]
    exact triangularVal_center hpos
  · exact createTriangularKernel_cell hpos hi hj

theorem C2_kernel_cell_formula_witness :
    (createTriangularKernel 3).cell 0 1 =
      (((3 / 2 + 1) - max |((0 : Nat) : Int) - 3 / 2| |((1 : Nat) : Int) - 3 / 2| : Int) : ℚ) /
        ∑ a in Finset.range (3 : Int).toNat, ∑ b in Finset.range (3 : Int).toNat,
          (((3 / 2 + 1) - max |(a : Int) - 3 / 2| |(b : Int) - 3 / 2| : Int) : ℚ) :=
  (C2_kernel_cell_formula 3 (by decide) (by decide) 0 1 (by decide) (by decide)).2.2

/-- C3: for every odd `size ≥ 1` the centre weight of the returned kernel is the unique
maximum: every other cell in range holds a strictly smaller weight. -/
theorem C3_kernel_center_unique_max (size : Int) (hodd : size % 2 = 1) (hpos : 1 ≤ size)
    (i j : Nat) (hi : (i : Int) < size) (hj : (j : Int) < size)
    (hne : ¬ (i = (size / 2).toNat ∧ j = (size / 2).toNat)) :
    (createTriangularKernel size).cell i j <
      (createTriangularKernel size).cell (size / 2).toNat (size / 2).toNat := by
  have _ := hodd
  rw [createTriangularKernel_cell hpos hi hj,
    createTriangularKernel_cell hpos (a := (size / 2).toNat) (b := (size / 2).toNat)
      (by omega) (by omega),
    triangularVal_center hpos]
  exact div_lt_div_of_pos_right (triangularVal_lt_center hne) (sum_triangularVal_pos hpos)

theorem C3_kernel_center_unique_max_witness :
    (createTriangularKernel 5).cell 2 3 < (createTriangularKernel 5).cell 2 2 :=
  C3_kernel_center_unique_max 5 (by decide) (by decide) 2 3 (by decide) (by decide)
    (by decide)

/-- C10: for every odd `size ≥ 1` and all cells `(i, j)` in range, the returned kernel is
symmetric under transposition and under reversal of either axis, hence equal to its own
180-degree rotation; therefore the correlation sum and the convolution sum with this kernel
agree at every position of every (border-extended) source. -/
theorem C10_kernel_symmetric (size : Int) (hodd : size % 2 = 1) (hpos : 1 ≤ size)
    (i j : Nat) (hi : (i : Int) < size) (hj : (j : Int) < size) :
    (createTriangularKernel size).cell i j = (createTriangularKernel size).cell j i ∧
    (createTriangularKernel size).cell i j =
      (createTriangularKernel size).cell (size.toNat - 1 - i) j ∧
    (createTriangularKernel size).cell i j =
      (createTriangularKernel size).cell i (size.toNat - 1 - j) ∧
    (createTriangularKernel size).cell i j =
      (createTriangularKernel size).cell (size.toNat - 1 - i) (size.toNat - 1 - j) ∧
    (∀ (src : Int → Int → ℚ) (y x : Int),
      correlateAt (createTriangularKernel size) src y x =
        convolveAt (createTriangularKernel size) src y x) := by
  have hi' : ((size.toNat - 1 - i : Nat) : Int) < size := by omega
  have hj' : ((size.toNat - 1 - j : Nat) : Int) < size := by omega
  have hrow : ∀ {a : Nat}, (a : Int) < size → ∀ b : Nat,
      triangularVal (size / 2) (size.toNat - 1 - a) b = triangularVal (size / 2) a b :=
    fun ha b => triangularVal_flip_row hodd ha b
  have hcol : ∀ (a : Nat) {b : Nat}, (b : Int) < size →
      triangularVal (size / 2) a (size.toNat - 1 - b) = triangularVal (size / 2) a b := by
    intro a b hb
    rw [triangularVal_swap, hrow hb, triangularVal_swap]
  refine ⟨?_, ?_, ?_, ?_, ?_⟩
  · rw [createTriangularKernel_cell hpos hi hj, createTriangularKernel_cell hpos hj hi,
      triangularVal_swap]
  · rw [createTriangularKernel_cell hpos hi hj, createTriangularKernel_cell hpos hi' hj,
      hrow hi]
  · rw [createTriangularKernel_cell hpos hi hj, createTriangularKernel_cell hpos hi hj',
      hcol i hj]
  · rw [createTriangularKernel_cell hpos hi hj, createTriangularKernel_cell hpos hi' hj',
      hrow hi, hcol i hj]
  · intro src y x
    obtain ⟨hr, hc⟩ := createTriangularKernel_dims hpos
    unfold correlateAt convolveAt
    rw [hr, hc]
    have hn : (size.toNat : Int) = size := Int.toNat_of_nonneg (by omega)
    have hhalf : ((size.toNat / 2 : Nat) : Int) = size / 2 := by omega
    rw [← Finset.sum_range_reflect]
    apply Finset.sum_congr rfl
    intro a ha
    rw [← Finset.sum_range_reflect]
    apply Finset.sum_congr rfl
    intro b hb
    rw [Finset.mem_range] at ha hb
    have ha' : (a : Int) < size := by omega
    have hb' : (b : Int) < size := by omega
    have ha2 : ((size.toNat - 1 - a : Nat) : Int) < size := by omega
    have hb2 : ((size.toNat - 1 - b : Nat) : Int) < size := by omega
    rw [createTriangularKernel_cell hpos ha2 hb2, createTriangularKernel_cell hpos ha' hb',
      hrow ha', hcol a hb']
    have e1 : y + (((size.toNat - 1 - a : Nat) : Int) - ((size.toNat / 2 : Nat) : Int)) =
        y - ((a : Int) - ((size.toNat / 2 : Nat) : Int)) := by omega
    have e2 : x + (((size.toNat - 1 - b : Nat) : Int) - ((size.toNat / 2 : Nat) : Int)) =
        x - ((b : Int) - ((size.toNat / 2 : Nat) : Int)) := by omega
    rw [e1, e2]

theorem C10_kernel_symmetric_witness :
    (createTriangularKernel 3).cell 0 1 = (createTriangularKernel 3).cell 1 0 :=
  (C10_kernel_symmetric 3 (by decide) (by decide) 0 1 (by decide) (by decide)).1

/-! ## The loops of `addSaltPepperNoise` -/

theorem addSaltPepperNoise_spec (draws : Nat → ℚ) (img : Mat Nat) (density : ℚ) :
    (addSaltPepperNoise draws img density).1.rows = img.rows ∧
    (addSaltPepperNoise draws img density).1.cols = img.cols ∧
    (addSaltPepperNoise draws img density).2 = img.rows * img.cols ∧
    (∀ row col, row < img.rows → col < img.cols →
      (addSaltPepperNoise draws img density).1.cell row col =
        if draws (row * img.cols + col) < density / 2 then 0
        else if draws (row * img.cols + col) < density then 255
        else img.cell row col) := by
  have key := forLoop_inv
    (fun r (st : Mat Nat × Nat) =>
      st.1.rows = img.rows ∧ st.1.cols = img.cols ∧ st.2 = r * img.cols ∧
      (∀ a b, a < img.rows → b < img.cols →
        st.1.cell a b = if a < r then
          (if draws (a * img.cols + b) < density / 2 then 0
           else if draws (a * img.cols + b) < density then 255
           else img.cell a b)
          else img.cell a b))
    img.rows
    (fun row st => forLoop img.cols (fun col st =>
      let r := draws st.2
      if r < density / 2 then (st.1.set row col 0, st.2 + 1)
      else if r < density then (st.1.set row col 255, st.2 + 1)
      else (st.1, st.2 + 1)) st)
    (img, 0)
    (by
      refine ⟨rfl, rfl, by simp, ?_⟩
      intro a b _ _
      simp)
    (by
      intro r t hr ⟨tr, tc, tn, tcell⟩
      have inner := forLoop_inv
        (fun c (st : Mat Nat × Nat) =>
          st.1.rows = img.rows ∧ st.1.cols = img.cols ∧ st.2 = r * img.cols + c ∧
          (∀ a b, a < img.rows → b < img.cols →
            st.1.cell a b = if a < r ∨ (a = r ∧ b < c) then
              (if draws (a * img.cols + b) < density / 2 then 0
               else if draws (a * img.cols + b) < density then 255
               else img.cell a b)
              else img.cell a b))
        img.cols
        (fun col st =>
          let d := draws st.2
          if d < density / 2 then (st.1.set r col 0, st.2 + 1)
          else if d < density then (st.1.set r col 255, st.2 + 1)
          else (st.1, st.2 + 1))
        t
        (by
          refine ⟨tr, tc, by simpa using tn, ?_⟩
          intro a b ha hb
          rw [tcell a b ha hb]
          simp)
        (by
          intro c u hc ⟨ur, uc, un, ucell⟩
          have hiff : ∀ a b, ¬ (r = a ∧ c = b) →
              ((a < r ∨ a = r ∧ b < c) ↔ (a < r ∨ a = r ∧ b < c + 1)) := by
            intro a b hab
            constructor
            · rintro (h | ⟨h1, h2⟩)
              · exact Or.inl h
              · exact Or.inr ⟨h1, by omega⟩
            · rintro (h | ⟨h1, h2⟩)
              · exact Or.inl h
              · refine Or.inr ⟨h1, ?_⟩
                rcases Nat.lt_succ_iff_lt_or_eq.mp h2 with h3 | h3
                · exact h3
                · exact absurd ⟨h1.symm, h3.symm⟩ hab
          have hcond : ∀ a b, (r = a ∧ c = b) → (a < r ∨ a = r ∧ b < c + 1) := by
            rintro a b ⟨rfl, rfl⟩
            exact Or.inr ⟨rfl, Nat.lt_succ_self _⟩
          have hcond' : ∀ a b, (r = a ∧ c = b) → ¬ (a < r ∨ a = r ∧ b < c) := by
            rintro a b ⟨rfl, rfl⟩
            rintro (h | ⟨_, h⟩) <;> omega
          simp only [un]
          by_cases h1 : draws (r * img.cols + c) < density / 2
          · simp only [h1, if_true]
            refine ⟨by simpa using ur, by simpa using uc, by ring, ?_⟩
            intro a b ha hb
            by_cases hab : r = a ∧ c = b
            · rw [if_pos (hcond a b hab)]
              obtain ⟨rfl, rfl⟩ := hab
              rw [Mat.cell_set_same u.1 (by omega) (by omega), if_pos h1]
            · rw [Mat.cell_set_other u.1 (by omega) (by omega) hab, ucell a b ha hb]
              simp only [hiff a b hab]
          · by_cases h2 : draws (r * img.cols + c) < density
            · simp only [h1, h2, if_true, if_false]
              refine ⟨by simpa using ur, by simpa using uc, by ring, ?_⟩
              intro a b ha hb
              by_cases hab : r = a ∧ c = b
              · rw [if_pos (hcond a b hab)]
                obtain ⟨rfl, rfl⟩ := hab
                rw [Mat.cell_set_same u.1 (by omega) (by omega), if_neg h1, if_pos h2]
              · rw [Mat.cell_set_other u.1 (by omega) (by omega) hab, ucell a b ha hb]
                simp only [hiff a b hab]
            · simp only [h1, h2, if_false]
              refine ⟨ur, uc, by ring, ?_⟩
              intro a b ha hb
              by_cases hab : r = a ∧ c = b
              · rw [if_pos (hcond a b hab), ucell a b ha hb, if_neg (hcond' a b hab)]
                obtain ⟨rfl, rfl⟩ := hab
                rw [if_neg h1, if_neg h2]
              · rw [ucell a b ha hb]
                simp only [hiff a b hab])
      obtain ⟨r1, r2, r3, r4⟩ := inner
      refine ⟨r1, r2, by rw [r3]; ring, ?_⟩
      intro a b ha hb
      rw [r4 a b ha hb]
      have hiff : (a < r ∨ a = r ∧ b < img.cols) ↔ a < r + 1 := by
        constructor
        · rintro (h | ⟨h1, _⟩) <;> omega
        · intro h
          rcases Nat.lt_succ_iff_lt_or_eq.mp h with h3 | h3
          · exact Or.inl h3
          · exact Or.inr ⟨h3, hb⟩
      simp only [hiff])
  obtain ⟨k1, k2, k3, k4⟩ := key
  refine ⟨k1, k2, k3, ?_⟩
  intro a b ha hb
  have := k4 a b ha hb
  simpa [ha] using this

theorem addSaltPepperNoise_zero (draws : Nat → ℚ) (img : Mat Nat)
    (hdraws : ∀ k, 0 ≤ draws k) : (addSaltPepperNoise draws img 0).1 = img := by
  have body : ∀ (row : Nat) (col : Nat) (st : Mat Nat × Nat), st.1 = img →
      (let r := draws st.2
       if r < (0 : ℚ) / 2 then (st.1.set row col 0, st.2 + 1)
       else if r < 0 then (st.1.set row col 255, st.2 + 1)
       else (st.1, st.2 + 1)).1 = img := by
    intro row col st hst
    have h := hdraws st.2
    have h1 : ¬ draws st.2 < (0 : ℚ) / 2 := by
      rw [zero_div]
      exact not_lt.mpr h
    have h2 : ¬ draws st.2 < 0 := not_lt.mpr h
    simp only [h1, h2, if_false]
    exact hst
  exact forLoop_inv (fun _ (st : Mat Nat × Nat) => st.1 = img) img.rows _ (img, 0) rfl
    (fun row t _ ht =>
      forLoop_inv (fun _ (st : Mat Nat × Nat) => st.1 = img) img.cols _ t ht
        (fun col u _ hu => body row col u hu))

/-! ## Claims about `addSaltPepperNoise` -/

/-- C4: with the random source given as the sequence `draws`, `addSaltPepperNoise` keeps the
dimensions of the raster, takes exactly `rows * cols` draws, and pixel `(row, col)` is decided
by draw number `row * cols + col` (row-major order, one draw per pixel): it becomes 0 if the
draw is below `density / 2`, otherwise 255 if the draw is below `density`, otherwise it keeps
its input value; for every raster and every density. -/
theorem C4_noise_pixelwise (draws : Nat → ℚ) (img : Mat Nat) (density : ℚ) :
    (addSaltPepperNoise draws img density).1.rows = img.rows ∧
    (addSaltPepperNoise draws img density).1.cols = img.cols ∧
    (addSaltPepperNoise draws img density).2 = img.rows * img.cols ∧
    (∀ row col, row < img.rows → col < img.cols →
      (addSaltPepperNoise draws img density).1.cell row col =
        if draws (row * img.cols + col) < density / 2 then 0
        else if draws (row * img.cols + col) < density then 255
        else img.cell row col) :=
  addSaltPepperNoise_spec draws img density

theorem C4_noise_pixelwise_witness :
    1 < sampleRaster.rows ∧ 0 < sampleRaster.cols ∧
    (addSaltPepperNoise sampleDraws sampleRaster (1 / 2)).1.cell 1 0 =
      if sampleDraws (1 * sampleRaster.cols + 0) < (1 / 2 : ℚ) / 2 then 0
      else if sampleDraws (1 * sampleRaster.cols + 0) < 1 / 2 then 255
      else sampleRaster.cell 1 0 :=
  ⟨by decide, by decide,
    (C4_noise_pixelwise sampleDraws sampleRaster (1 / 2)).2.2.2 1 0 (by decide) (by decide)⟩

/-- C5: for `density = 0` and draws in `[0, 1)`, the raster that `addSaltPepperNoise` leaves
is identical to its input (same dimensions, same buffer). -/
theorem C5_noise_density_zero (draws : Nat → ℚ) (img : Mat Nat)
    (hdraws : ∀ k, 0 ≤ draws k ∧ draws k < 1) :
    (addSaltPepperNoise draws img 0).1 = img :=
  addSaltPepperNoise_zero draws img (fun k => (hdraws k).1)

theorem C5_noise_density_zero_witness :
    (addSaltPepperNoise (fun _ => 1 / 2) sampleRaster 0).1 = sampleRaster :=
  C5_noise_density_zero (fun _ => 1 / 2) sampleRaster (fun _ => ⟨by norm_num, by norm_num⟩)

/-- C6: for `density = 1` and draws in `[0, 1)`, every pixel of the raster that
`addSaltPepperNoise` leaves is 0 or 255: 0 when its draw is below 1/2 and 255 otherwise, so
no pixel keeps its input value by falling through both tests. -/
theorem C6_noise_density_one (draws : Nat → ℚ) (img : Mat Nat)
    (hdraws : ∀ k, 0 ≤ draws k ∧ draws k < 1)
    (row col : Nat) (hrow : row < img.rows) (hcol : col < img.cols) :
    (addSaltPepperNoise draws img 1).1.cell row col =
      (if draws (row * img.cols + col) < 1 / 2 then 0 else 255) ∧
    ((addSaltPepperNoise draws img 1).1.cell row col = 0 ∨
      (addSaltPepperNoise draws img 1).1.cell row col = 255) := by
  have h := (addSaltPepperNoise_spec draws img 1).2.2.2 row col hrow hcol
  have hlt := (hdraws (row * img.cols + col)).2
  rw [if_pos hlt] at h
  refine ⟨h, ?_⟩
  rw [h]
  by_cases hh : draws (row * img.cols + col) < 1 / 2
  · exact Or.inl (if_pos hh)
  · exact Or.inr (if_neg hh)

theorem C6_noise_density_one_witness :
    (addSaltPepperNoise (fun _ => 3 / 4) sampleRaster 1).1.cell 0 2 = 0 ∨
      (addSaltPepperNoise (fun _ => 3 / 4) sampleRaster 1).1.cell 0 2 = 255 :=
  (C6_noise_density_one (fun _ => 3 / 4) sampleRaster (fun _ => ⟨by norm_num, by norm_num⟩)
    0 2 (by decide) (by decide)).2

/-! ## The artifacts of `processImage` -/

theorem toString_three : toString (3 : Int) = "3" := rfl

theorem toString_five : toString (5 : Int) = "5" := rfl

theorem toString_seven : toString (7 : Int) = "7" := rfl

theorem processImage_load_failure {D : Type} (env : Env D) (draws : Nat → ℚ)
    (path imgName : String) (noiseDensity : ℚ) (outputDir : String)
    (hload : (env.imread path).empty = true) :
    processImage env draws path imgName noiseDensity outputDir =
      [Event.cerr ("Failed to load image: " ++ path)] := by
  simp [processImage, hload]

theorem writtenPaths_processImage {D : Type} (env : Env D) (draws : Nat → ℚ)
    (path imgName : String) (noiseDensity : ℚ) (outputDir : String)
    (hload : (env.imread path).empty = false) :
    writtenPaths (processImage env draws path imgName noiseDensity outputDir) =
      ["original", "noisy", "mean_3", "median_3", "triangular_3", "mean_5", "median_5",
       "triangular_5", "mean_7", "median_7", "triangular_7",
       "sobel_original_horizontal", "sobel_original_vertical", "sobel_original_magnitude",
       "sobel_noisy_horizontal", "sobel_noisy_vertical", "sobel_noisy_magnitude",
       "sobel_mean_3_horizontal", "sobel_mean_3_vertical", "sobel_mean_3_magnitude",
       "sobel_median_3_horizontal", "sobel_median_3_vertical", "sobel_median_3_magnitude",
       "sobel_triangular_3_horizontal", "sobel_triangular_3_vertical",
       "sobel_triangular_3_magnitude",
       "sobel_mean_5_horizontal", "sobel_mean_5_vertical", "sobel_mean_5_magnitude",
       "sobel_median_5_horizontal", "sobel_median_5_vertical", "sobel_median_5_magnitude",
       "sobel_triangular_5_horizontal", "sobel_triangular_5_vertical",
       "sobel_triangular_5_magnitude",
       "sobel_mean_7_horizontal", "sobel_mean_7_vertical", "sobel_mean_7_magnitude",
       "sobel_median_7_horizontal", "sobel_median_7_vertical", "sobel_median_7_magnitude",
       "sobel_triangular_7_horizontal", "sobel_triangular_7_vertical",
       "sobel_triangular_7_magnitude"].map (specArtifactPath outputDir imgName) := by
  simp [processImage, hload, filterStep, applySobelAndSave, writtenPaths, specArtifactPath,
    toString_three, toString_five, toString_seven, String.append_assoc]

theorem specArtifactPath_injective (outDir label : String) :
    Function.Injective (specArtifactPath outDir label) := by
  intro s t h
  have hd := congrArg String.data h
  simp only [specArtifactPath, String.data_append, List.append_assoc] at hd
  have h1 := List.append_cancel_left hd
  have h2 := List.append_cancel_left h1
  have h3 := List.append_cancel_left h2
  have h4 := List.append_cancel_left h3
  have h5 := List.append_cancel_right h4
  exact String.ext h5

/-- C7: when the input image loads, `processImage` calls `cv::imwrite` exactly 44 times, on
pairwise distinct paths, and these paths are (up to order) `outputDir/imgName_<suffix>.png`
for the 44 suffixes `original`, `noisy`, `<type>_<size>` and `sobel_<src>_<map>` of the
specification. -/
theorem C7_processImage_artifacts {D : Type} (env : Env D) (draws : Nat → ℚ)
    (path imgName : String) (noiseDensity : ℚ) (outputDir : String)
    (hload : (env.imread path).empty = false) :
    (writtenPaths (processImage env draws path imgName noiseDensity outputDir)).length = 44 ∧
    (writtenPaths (processImage env draws path imgName noiseDensity outputDir)).Nodup ∧
    (writtenPaths (processImage env draws path imgName noiseDensity outputDir)).Perm
      (specArtifactSuffixes.map (specArtifactPath outputDir imgName)) := by
  rw [writtenPaths_processImage env draws path imgName noiseDensity outputDir hload]
  refine ⟨by simp, ?_, ?_⟩
  · exact List.Nodup.map (specArtifactPath_injective outputDir imgName) (by decide)
  · exact List.Perm.map _ (by decide)

theorem C7_processImage_artifacts_witness :
    (sampleEnv.imread "present.png").empty = false ∧
    (writtenPaths (processImage sampleEnv sampleDraws "present.png" "image2" (1 / 10)
      "output")).length = 44 :=
  ⟨by decide,
    (C7_processImage_artifacts sampleEnv sampleDraws "present.png" "image2" (1 / 10) "output"
      (by decide)).1⟩

/-- C8: when `cv::imread` returns an empty raster, `processImage` only logs the failure on
`std::cerr` (no `cv::imwrite`, no metric), and `main` is not aborted: whichever of the two
images fails, `main` still runs `processImage` on the other one, in order, and returns exit
code 0. -/
theorem C8_load_failure_does_not_abort {D : Type} (env : Env D) (draws1 draws2 : Nat → ℚ)
    (result : ParseResult) (image1 image2 : String)
    (hhelp : result.help = false) (h1 : result.image1 = some image1)
    (h2 : result.image2 = some image2) :
    (∀ (draws : Nat → ℚ) (path imgName : String) (d : ℚ) (out : String),
      (env.imread path).empty = true →
        processImage env draws path imgName d out =
          [Event.cerr ("Failed to load image: " ++ path)] ∧
        writtenPaths (processImage env draws path imgName d out) = [] ∧
        metricCount (processImage env draws path imgName d out) = 0) ∧
    ((env.imread image1).empty = true →
      main env draws1 draws2 result =
        ([Event.createDirectories result.outputDir,
          Event.cerr ("Failed to load image: " ++ image1)] ++
          processImage env draws2 image2 "image2" result.density result.outputDir, 0)) ∧
    ((env.imread image2).empty = true →
      main env draws1 draws2 result =
        ([Event.createDirectories result.outputDir] ++
          processImage env draws1 image1 "image1" result.density result.outputDir ++
          [Event.cerr ("Failed to load image: " ++ image2)], 0)) := by
  refine ⟨?_, ?_, ?_⟩
  · intro draws path imgName d out hload
    rw [processImage_load_failure env draws path imgName d out hload]
    exact ⟨rfl, rfl, rfl⟩
  · intro hload
    simp only [main, hhelp, h1, h2]
    rw [processImage_load_failure env draws1 image1 "image1" _ _ hload]
    rfl
  · intro hload
    simp only [main, hhelp, h1, h2]
    rw [processImage_load_failure env draws2 image2 "image2" _ _ hload]
    rfl

theorem C8_load_failure_does_not_abort_witness :
    sampleArgs.help = false ∧ (sampleEnv.imread "missing.png").empty = true ∧
    main sampleEnv sampleDraws sampleDraws sampleArgs =
      ([Event.createDirectories sampleArgs.outputDir,
        Event.cerr ("Failed to load image: " ++ "missing.png")] ++
        processImage sampleEnv sampleDraws "present.png" "image2" sampleArgs.density
          sampleArgs.outputDir, 0) :=
  ⟨rfl, by decide,
    (C8_load_failure_does_not_abort sampleEnv sampleDraws sampleDraws sampleArgs
      "missing.png" "present.png" rfl rfl rfl).2.1 (by decide)⟩

end Kyubey
